import Mathlib

/-
Verification of the playlist / persistence / process-reconciliation core of
linux-wallpaperengine-gui against its specification.

The definitions below are a shallow embedding of the Python sources:
  * src/core/playlist_manager.py   (PlaylistManager)
  * src/core/wallpaper_engine.py   (WallpaperEngine)
  * src/ui/main_window.py          (detection / verification / startup restore)
  * src/core_refactored.py         (Flow.PlaylistManager, random advance)
Python `random.randint` / `random.choice` calls are modelled by an explicit
oracle argument `k : Nat` reduced modulo the size of the candidate set, so a
theorem quantified over `k` covers every outcome of the random choice.
-/

namespace LWEGui

/-- A JSON scalar value as stored inside the persisted `last_settings` object
(screen is a string, volume and fps are ints, the mute flags are bools). -/
inductive SVal where
  | s (v : String)
  | i (v : Int)
  | b (v : Bool)
deriving Repr, DecidableEq

/-- utils/constants.py: `DEFAULT_TIMER_INTERVAL = 60`. -/
def DEFAULT_TIMER_INTERVAL : Int := 60

/-- In-memory state of `PlaylistManager` (src/core/playlist_manager.py).
Python dicts keep insertion order, so `playlists` is an association list.
`current_index` is a Python int, hence `Int` here. -/
structure PMState where
  current_playlist : List String
  current_index : Int
  is_playing : Bool
  is_random : Bool
  timer_interval : Int
  custom_timer_text : Option String
  recent_wallpapers : List String
  playlists : List (String × List String)
deriving Repr, DecidableEq

/-- The field values `PlaylistManager.__init__` assigns before `load_settings`
runs. -/
def initPMState : PMState :=
  { current_playlist := []
    current_index := 0
    is_playing := false
    is_random := false
    timer_interval := DEFAULT_TIMER_INTERVAL
    custom_timer_text := none
    recent_wallpapers := []
    playlists := [] }

/-- The `wallpaper_state` object of the settings file.  The outer `Option`
distinguishes a missing key from a present one (`data.get` defaults apply when
the key is absent); `current_wallpaper`'s inner `Option` is JSON null. -/
structure WallpaperStateData where
  current_wallpaper : Option (Option String)
  last_settings : Option (List (String × SVal))
deriving Repr, DecidableEq

/-- The parsed JSON object of the settings file.  Every field is optional
because each reader retrieves it with `data.get(key, default)`. -/
structure SettingsData where
  playlists : Option (List (String × List String))
  recent : Option (List String)
  timer_interval : Option Int
  custom_timer_text : Option (Option String)
  is_random : Option Bool
  current_playlist : Option (List String)
  current_index : Option Int
  is_playing : Option Bool
  wallpaper_state : Option WallpaperStateData
deriving Repr, DecidableEq

/-- The settings file on disk: absent, unparseable JSON, or a parsed object. -/
inductive SettingsFile where
  | missing
  | malformed
  | parsed (d : SettingsData)
deriving Repr, DecidableEq

/-- Model of `PlaylistManager.load_settings`.  A missing file returns `False` and leaves
the state untouched; unparseable JSON raises inside `json.load`, which is
caught (and logged) before any field was assigned, so the state is also left
untouched; a parsed object overwrites every field, applying the per-key
defaults of the `data.get` calls. -/
def pm_load_settings (f : SettingsFile) (st : PMState) : PMState × Bool :=
  match f with
  | .missing => (st, false)
  | .malformed => (st, false)
  | .parsed d =>
    ({ playlists := d.playlists.getD []
       recent_wallpapers := d.recent.getD []
       timer_interval := d.timer_interval.getD DEFAULT_TIMER_INTERVAL
       custom_timer_text := d.custom_timer_text.getD none
       is_random := d.is_random.getD false
       current_playlist := d.current_playlist.getD []
       current_index := d.current_index.getD 0
       is_playing := d.is_playing.getD false }, true)

/-- Model of `PlaylistManager.__init__`: defaults, then `load_settings`. -/
def pm_init (f : SettingsFile) : PMState :=
  (pm_load_settings f initPMState).1

/-- Python `l[-n:]`: the last `n` elements (all of them when `l` is shorter). -/
def lastN (n : Nat) (l : List α) : List α := l.drop (l.length - n)

/-- Model of `PlaylistManager.save_settings`: whole-file overwrite with exactly the
manager's keys (note: the `wallpaper_state` key is not among them), truncating
`recent` to the last 20 entries. -/
def pm_save_settings (st : PMState) : SettingsFile :=
  .parsed
    { playlists := some st.playlists
      recent := some (lastN 20 st.recent_wallpapers)
      timer_interval := some st.timer_interval
      custom_timer_text := some st.custom_timer_text
      is_random := some st.is_random
      current_playlist := some st.current_playlist
      current_index := some st.current_index
      is_playing := some st.is_playing
      wallpaper_state := none }

/-- In-memory state of `WallpaperEngine` (src/core/wallpaper_engine.py).
`current_process` holds the PID of a just-spawned renderer; the code discards
it immediately, so it is `none` in every reachable quiescent state. -/
structure EngState where
  current_wallpaper : Option String
  current_process : Option Nat
  last_settings : List (String × SVal)
deriving Repr, DecidableEq

/-- Field values of `WallpaperEngine.__init__` before `_load_state`. -/
def initEngState : EngState :=
  { current_wallpaper := none, current_process := none, last_settings := [] }

/-- Model of `WallpaperEngine._load_state`: reads the settings file; on a missing file
or a JSON parse error nothing is assigned; otherwise the `wallpaper_state`
object is read with `data.get('wallpaper_state', dict())` semantics. -/
def engine_load_state (f : SettingsFile) (st : EngState) : EngState :=
  match f with
  | .missing => st
  | .malformed => st
  | .parsed d =>
    match d.wallpaper_state with
    | none => { st with current_wallpaper := none, last_settings := [] }
    | some w =>
      { st with
        current_wallpaper := w.current_wallpaper.getD none
        last_settings := w.last_settings.getD [] }

/-- Model of `WallpaperEngine._save_state`: read the existing file (an unparseable file
raises inside the try-block, so nothing is written), set the
`wallpaper_state` key, write everything back. -/
def engine_save_state (st : EngState) (f : SettingsFile) : SettingsFile :=
  match f with
  | .malformed => .malformed
  | .missing =>
    .parsed
      { playlists := none, recent := none, timer_interval := none
        custom_timer_text := none, is_random := none, current_playlist := none
        current_index := none, is_playing := none
        wallpaper_state := some ⟨some st.current_wallpaper, some st.last_settings⟩ }
  | .parsed d =>
    .parsed
      { d with wallpaper_state := some ⟨some st.current_wallpaper, some st.last_settings⟩ }

/-- Startup load: `PlaylistManager.__init__` plus `WallpaperEngine._load_state`
on the same settings file. -/
def load_all (f : SettingsFile) : PMState × EngState :=
  (pm_init f, engine_load_state f initEngState)

/-- Full-state save: `PlaylistManager.save_settings` (whole-file overwrite)
followed by `WallpaperEngine._save_state` (read-modify-write of the
`wallpaper_state` key). -/
def save_all (pm : PMState) (eng : EngState) : SettingsFile :=
  engine_save_state eng (pm_save_settings pm)

/-- Model of `PlaylistManager.get_current_wallpaper`. -/
def pm_get_current (st : PMState) : Option String :=
  if st.current_playlist ≠ [] ∧ 0 ≤ st.current_index ∧
      st.current_index < (st.current_playlist.length : Int) then
    st.current_playlist.get? st.current_index.toNat
  else none

/-- Model of `PlaylistManager.get_next_wallpaper`.  The call `random.randint(0, len - 1)` is
modelled by the oracle `k` reduced modulo the playlist length; Python `%` on
ints is `Int.emod`. -/
def pm_get_next (random_mode : Bool) (k : Nat) (st : PMState) :
    Option String × PMState :=
  if st.current_playlist = [] then (none, st)
  else
    let len : Int := st.current_playlist.length
    let idx : Int :=
      if random_mode then (k : Int) % len else (st.current_index + 1) % len
    let st2 := { st with current_index := idx }
    (pm_get_current st2, st2)

/-- Model of `PlaylistManager.get_previous_wallpaper`. -/
def pm_get_previous (st : PMState) : Option String × PMState :=
  if st.current_playlist = [] then (none, st)
  else
    let len : Int := st.current_playlist.length
    let st2 := { st with current_index := (st.current_index - 1) % len }
    (pm_get_current st2, st2)

/-- Model of `PlaylistManager.add_to_current_playlist`: rejects the empty (falsy)
string and duplicates, appends otherwise. -/
def pm_add (id : String) (st : PMState) : Bool × PMState :=
  if id = "" then (false, st)
  else if id ∈ st.current_playlist then (false, st)
  else (true, { st with current_playlist := st.current_playlist ++ [id] })

/-- Model of `PlaylistManager.remove_from_current_playlist`.  The Python guard is
`0 <= index < len(...)`; a `Nat` index covers exactly the accepted values. -/
def pm_remove (i : Nat) (st : PMState) : Bool × PMState :=
  if i < st.current_playlist.length then
    let nl := st.current_playlist.eraseIdx i
    let ci := st.current_index
    let ci2 : Int :=
      if (i : Int) ≤ ci ∧ 0 < ci then ci - 1
      else if (nl.length : Int) ≤ ci ∧ nl ≠ [] then 0
      else ci
    (true, { st with current_playlist := nl, current_index := ci2 })
  else (false, st)

/-- Model of `PlaylistManager.clear_current_wallpaper`: reset the cursor, stop playing,
keep the playlist (called after a failed process verification). -/
def pm_clear_current (st : PMState) : PMState :=
  { st with current_index := 0, is_playing := false }

/-- One playlist operation of claim C3. -/
inductive POp where
  | add (id : String)
  | removeAt (i : Nat)
  | advance (random_mode : Bool) (k : Nat)
  | retreat
deriving Repr, DecidableEq

/-- State effect of one operation (return values discarded). -/
def applyOp (st : PMState) : POp → PMState
  | .add id => (pm_add id st).2
  | .removeAt i => (pm_remove i st).2
  | .advance r k => (pm_get_next r k st).2
  | .retreat => (pm_get_previous st).2

/-- Run a sequence of playlist operations from a starting state. -/
def runOps (ops : List POp) (st : PMState) : PMState := ops.foldl applyOp st

/-- The inductive invariant: the cursor is in range on a non-empty playlist,
pinned to 0 on an empty one, and none of the four operations ever sets
`is_playing`. -/
def PMInv (st : PMState) : Prop :=
  0 ≤ st.current_index ∧
  (st.current_playlist ≠ [] → st.current_index < (st.current_playlist.length : Int)) ∧
  (st.current_playlist = [] → st.current_index = 0) ∧
  st.is_playing = false

theorem pmInv_init : PMInv initPMState := by
  refine ⟨le_refl 0, ?_, fun _ => rfl, rfl⟩
  intro h
  simp [initPMState] at h

theorem pm_add_inv {st : PMState} (h : PMInv st) (id : String) :
    PMInv (pm_add id st).2 := by
  obtain ⟨h0, hlt, hemp, hplay⟩ := h
  unfold pm_add
  split
  · exact ⟨h0, hlt, hemp, hplay⟩
  split
  · exact ⟨h0, hlt, hemp, hplay⟩
  refine ⟨h0, ?_, ?_, hplay⟩
  · intro _
    rcases eq_or_ne st.current_playlist [] with hnil | hne
    · have hci := hemp hnil
      simp [hnil, hci]
    · have hci := hlt hne
      simp only [List.length_append, List.length_cons, List.length_nil]
      push_cast
      omega
  · intro hx
    exact absurd hx (by simp)

theorem pm_get_next_inv {st : PMState} (h : PMInv st) (r : Bool) (k : Nat) :
    PMInv (pm_get_next r k st).2 := by
  obtain ⟨h0, hlt, hemp, hplay⟩ := h
  unfold pm_get_next
  split
  · exact ⟨h0, hlt, hemp, hplay⟩
  rename_i hne
  have hpos : (0 : Int) < (st.current_playlist.length : Int) := by
    exact_mod_cast List.length_pos.mpr hne
  refine ⟨?_, fun _ => ?_, fun hx => absurd hx hne, hplay⟩
  · cases r with
    | false => exact Int.emod_nonneg _ (by omega)
    | true => exact Int.emod_nonneg _ (by omega)
  · cases r with
    | false => exact Int.emod_lt_of_pos _ hpos
    | true => exact Int.emod_lt_of_pos _ hpos

theorem pm_get_previous_inv {st : PMState} (h : PMInv st) :
    PMInv (pm_get_previous st).2 := by
  obtain ⟨h0, hlt, hemp, hplay⟩ := h
  unfold pm_get_previous
  split
  · exact ⟨h0, hlt, hemp, hplay⟩
  rename_i hne
  have hpos : (0 : Int) < (st.current_playlist.length : Int) := by
    exact_mod_cast List.length_pos.mpr hne
  exact ⟨Int.emod_nonneg _ (by omega), fun _ => Int.emod_lt_of_pos _ hpos,
    fun hx => absurd hx hne, hplay⟩

theorem pm_remove_inv {st : PMState} (h : PMInv st) (i : Nat) :
    PMInv (pm_remove i st).2 := by
  obtain ⟨h0, hlt, hemp, hplay⟩ := h
  unfold pm_remove
  split
  case isFalse => exact ⟨h0, hlt, hemp, hplay⟩
  rename_i hi
  have hplne : st.current_playlist ≠ [] := by
    intro hx
    rw [hx] at hi
    simp at hi
  have hci : st.current_index < (st.current_playlist.length : Int) := hlt hplne
  have hlen : (st.current_playlist.eraseIdx i).length = st.current_playlist.length - 1 := by
    rw [List.length_eraseIdx st.current_playlist i, if_pos hi]
  have hlen1 : 1 ≤ st.current_playlist.length := by omega
  dsimp only
  simp only [PMInv]
  split
  · rename_i hc1
    refine ⟨by omega, fun hne2 => by omega, fun he2 => ?_, hplay⟩
    have hz : (st.current_playlist.eraseIdx i).length = 0 := List.length_eq_zero.mpr he2
    omega
  · split
    · rename_i hc2
      refine ⟨le_refl 0, fun hne2 => ?_, fun he2 => absurd he2 hc2.2, hplay⟩
      have hpos2 : 0 < (st.current_playlist.eraseIdx i).length := List.length_pos.mpr hne2
      exact_mod_cast hpos2
    · rename_i hc1 hc2
      refine ⟨h0, fun hne2 => ?_, fun he2 => ?_, hplay⟩
      · rcases not_and_or.mp hc2 with hx | hx
        · push_neg at hx
          exact hx
        · exact absurd (not_not.mp hx) hne2
      · have hz : (st.current_playlist.eraseIdx i).length = 0 := List.length_eq_zero.mpr he2
        omega

theorem applyOp_inv {st : PMState} (h : PMInv st) (op : POp) :
    PMInv (applyOp st op) := by
  cases op with
  | add id => exact pm_add_inv h id
  | removeAt i => exact pm_remove_inv h i
  | advance r k => exact pm_get_next_inv h r k
  | retreat => exact pm_get_previous_inv h

theorem runOps_inv {st : PMState} (h : PMInv st) (ops : List POp) :
    PMInv (runOps ops st) := by
  induction ops generalizing st with
  | nil => exact h
  | cons op ops ih => exact ih (applyOp_inv h op)

/-- C3: for every sequence of add / remove-at-index / advance / retreat
operations run from the initial playlist state, whenever the playlist is
non-empty the cursor satisfies 0 ≤ current_index < length, and whenever it is
empty is_playing is false (none of the four operations ever sets
is_playing). -/
theorem c3_cursor_invariant (ops : List POp) :
    ((runOps ops initPMState).current_playlist ≠ [] →
      0 ≤ (runOps ops initPMState).current_index ∧
        (runOps ops initPMState).current_index <
          ((runOps ops initPMState).current_playlist.length : Int)) ∧
    ((runOps ops initPMState).current_playlist = [] →
      (runOps ops initPMState).is_playing = false) := by
  obtain ⟨h0, hlt, _, hplay⟩ := runOps_inv pmInv_init ops
  exact ⟨fun hne => ⟨h0, hlt hne⟩, fun _ => hplay⟩

/-- Witness for C3 at the concrete operation sequence
[add "A", add "B", advance, removeAt 0]. -/
theorem c3_cursor_invariant_witness :
    (runOps [POp.add "A", POp.add "B", POp.advance false 0, POp.removeAt 0]
        initPMState).current_playlist ≠ [] ∧
    0 ≤ (runOps [POp.add "A", POp.add "B", POp.advance false 0, POp.removeAt 0]
        initPMState).current_index ∧
    (runOps [POp.add "A", POp.add "B", POp.advance false 0, POp.removeAt 0]
        initPMState).current_index <
      (((runOps [POp.add "A", POp.add "B", POp.advance false 0, POp.removeAt 0]
        initPMState).current_playlist.length : Int)) :=
  ⟨by decide,
    ((c3_cursor_invariant
      [POp.add "A", POp.add "B", POp.advance false 0, POp.removeAt 0]).1
      (by decide)).1,
    ((c3_cursor_invariant
      [POp.add "A", POp.add "B", POp.advance false 0, POp.removeAt 0]).1
      (by decide)).2⟩

/-- The playlist of property P7, at cursor 2. -/
def pmABC : PMState :=
  { initPMState with current_playlist := ["A", "B", "C"], current_index := 2 }

/-- C9: on playlist [A, B, C] at cursor 2 a sequential advance returns "A"
and sets the cursor to 0; a retreat from cursor 0 returns "C" and sets the
cursor to 2 (modular wrap-around both ways, Python `%` being `Int.emod`). -/
theorem c9_sequential_wrap :
    (pm_get_next false 0 pmABC).1 = some "A" ∧
    (pm_get_next false 0 pmABC).2.current_index = 0 ∧
    (pm_get_previous { pmABC with current_index := 0 }).1 = some "C" ∧
    (pm_get_previous { pmABC with current_index := 0 }).2.current_index = 2 := by
  decide

/-- A duplicate-free playlist of size 6. -/
def pm6 : PMState :=
  { initPMState with current_playlist := ["A", "B", "C", "D", "E", "F"] }

/-- C4 counterexample: `PlaylistManager.get_next_wallpaper(random_mode=True)`
(src/core/playlist_manager.py) chooses by plain `random.randint` with no
recency buffer, so on a duplicate-free playlist of size 6 two consecutive
random advances (randint outcome 0 both times) return the same identifier —
the second pick equals an identifier among the previous 5 picks, which the
claim forbids. -/
theorem c4_counterexample :
    pm6.current_playlist.Nodup ∧ 6 ≤ pm6.current_playlist.length ∧
    (pm_get_next true 0 pm6).1 = some "A" ∧
    (pm_get_next true 0 (pm_get_next true 0 pm6).2).1 = some "A" := by
  decide

/-- C5: the persistence round trip.  Loading a settings file (PlaylistManager
load plus WallpaperEngine state load), saving (PlaylistManager whole-file
save followed by the engine's read-modify-write of `wallpaper_state`), and
loading again reproduces the same playlist, cursor, play/random mode,
timer settings, and the persisted wallpaper_state (current wallpaper and
last render settings). -/
theorem c5_round_trip (f : SettingsFile) :
    (load_all (save_all (load_all f).1 (load_all f).2)).1.current_playlist
        = (load_all f).1.current_playlist ∧
    (load_all (save_all (load_all f).1 (load_all f).2)).1.current_index
        = (load_all f).1.current_index ∧
    (load_all (save_all (load_all f).1 (load_all f).2)).1.is_playing
        = (load_all f).1.is_playing ∧
    (load_all (save_all (load_all f).1 (load_all f).2)).1.is_random
        = (load_all f).1.is_random ∧
    (load_all (save_all (load_all f).1 (load_all f).2)).1.timer_interval
        = (load_all f).1.timer_interval ∧
    (load_all (save_all (load_all f).1 (load_all f).2)).1.custom_timer_text
        = (load_all f).1.custom_timer_text ∧
    (load_all (save_all (load_all f).1 (load_all f).2)).2.current_wallpaper
        = (load_all f).2.current_wallpaper ∧
    (load_all (save_all (load_all f).1 (load_all f).2)).2.last_settings
        = (load_all f).2.last_settings := by
  cases f <;>
    simp [load_all, save_all, pm_init, pm_load_settings, pm_save_settings,
      engine_load_state, engine_save_state, initPMState, initEngState]

/-- C8: `PlaylistManager.load_settings` is a total function of the file
contents (it never raises to its caller: the missing-file path returns early
and the malformed-JSON path is caught and logged); on a missing file and on
malformed content the resulting in-memory state is the default one — empty
playlist, cursor 0, not playing, default timer interval. -/
theorem c8_load_defaults :
    pm_init .missing = initPMState ∧
    pm_init .malformed = initPMState ∧
    (pm_load_settings .missing initPMState).2 = false ∧
    (pm_load_settings .malformed initPMState).2 = false ∧
    initPMState.current_playlist = [] ∧
    initPMState.current_index = 0 ∧
    initPMState.is_playing = false ∧
    initPMState.timer_interval = DEFAULT_TIMER_INTERVAL := by
  decide

/-- State of the refactored playlist manager (src/core_refactored.py,
`Alias.PlaylistState`) relevant to random advance: the current playlist and
the shuffle-recency history, most recent last. -/
structure RState where
  playlist : List String
  shuffle_history : List String
deriving Repr, DecidableEq

/-- Model of `Flow.PlaylistManager._Get_Random_Wallpaper`: filter out the last 5
history entries; if no candidate remains, fall back to the whole playlist and
clear the history; `random.choice` is modelled by oracle `k` indexing the
candidate list; append the pick to the history and cap the history at 10
entries by popping the front. -/
def get_random_wallpaper (k : Nat) (st : RState) : String × RState :=
  let last5 := lastN 5 st.shuffle_history
  let available := st.playlist.filter (fun w => decide (w ∉ last5))
  let pool := if available.isEmpty then st.playlist else available
  let hist0 := if available.isEmpty then ([] : List String) else st.shuffle_history
  let sel := pool.getD (k % pool.length) ""
  let h1 := hist0 ++ [sel]
  (sel, { st with shuffle_history := if 10 < h1.length then h1.drop 1 else h1 })

/-- Emitted picks of consecutive advance(random=true) calls through
`Flow.PlaylistManager.Get_Next_Wallpaper`, one oracle value per call. -/
def runRandom : List Nat → RState → List String
  | [], _ => []
  | k :: ks, st =>
    let p := get_random_wallpaper k st
    p.1 :: runRandom ks p.2

theorem lastN_length_le (n : Nat) (l : List α) : (lastN n l).length ≤ n := by
  simp only [lastN, List.length_drop]
  omega

theorem getD_mem {l : List String} {n : Nat} (h : n < l.length) (d : String) :
    l.getD n d ∈ l := by
  rw [List.getD_eq_getElem l d h]
  exact List.getElem_mem h

/-- With a duplicate-free playlist of at least 6 entries, removing the (at
most 5) identifiers of the recency window always leaves a candidate, so the
reset branch of `_Get_Random_Wallpaper` is never taken. -/
theorem avail_ne_nil {st : RState} (hnd : st.playlist.Nodup)
    (hlen : 6 ≤ st.playlist.length) :
    st.playlist.filter
      (fun w => decide (w ∉ lastN 5 st.shuffle_history)) ≠ [] := by
  intro hav
  have hsub : st.playlist ⊆ lastN 5 st.shuffle_history := by
    intro x hx
    by_contra hmem
    have hxf : x ∈ st.playlist.filter
        (fun w => decide (w ∉ lastN 5 st.shuffle_history)) :=
      List.mem_filter.mpr ⟨hx, by simpa using hmem⟩
    rw [hav] at hxf
    exact absurd hxf (List.not_mem_nil x)
  have hle : st.playlist.length ≤ (lastN 5 st.shuffle_history).length :=
    (List.subperm_of_subset hnd hsub).length_le
  have h5 := lastN_length_le 5 st.shuffle_history
  omega

theorem get_random_playlist_eq (k : Nat) (st : RState) :
    ((get_random_wallpaper k st).2).playlist = st.playlist := rfl

/-- The picked identifier is never in the 5-element recency window. -/
theorem sel_not_last5 {st : RState} (hnd : st.playlist.Nodup)
    (hlen : 6 ≤ st.playlist.length) (k : Nat) :
    (get_random_wallpaper k st).1 ∉ lastN 5 st.shuffle_history := by
  have hne := avail_ne_nil hnd hlen
  have hemp : (st.playlist.filter
      (fun w => decide (w ∉ lastN 5 st.shuffle_history))).isEmpty = false := by
    rcases hz : (st.playlist.filter
        (fun w => decide (w ∉ lastN 5 st.shuffle_history))).isEmpty with _ | _
    · rfl
    · exact absurd (List.isEmpty_iff.mp hz) hne
  have hpos : 0 < (st.playlist.filter
      (fun w => decide (w ∉ lastN 5 st.shuffle_history))).length :=
    List.length_pos.mpr hne
  have hmem : (get_random_wallpaper k st).1 ∈ st.playlist.filter
      (fun w => decide (w ∉ lastN 5 st.shuffle_history)) := by
    simp only [get_random_wallpaper, hemp, if_neg, Bool.false_eq_true,
      not_false_iff, ite_false]
    exact getD_mem (Nat.mod_lt _ hpos) ""
  have := (List.mem_filter.mp hmem).2
  simpa using this

/-- The history after a pick, when the reset branch is not taken. -/
theorem get_random_hist_eq {st : RState} (hnd : st.playlist.Nodup)
    (hlen : 6 ≤ st.playlist.length) (k : Nat) :
    ((get_random_wallpaper k st).2).shuffle_history =
      (if 10 < (st.shuffle_history ++ [(get_random_wallpaper k st).1]).length
       then (st.shuffle_history ++ [(get_random_wallpaper k st).1]).drop 1
       else st.shuffle_history ++ [(get_random_wallpaper k st).1]) := by
  have hne := avail_ne_nil hnd hlen
  have hemp : (st.playlist.filter
      (fun w => decide (w ∉ lastN 5 st.shuffle_history))).isEmpty = false := by
    rcases hz : (st.playlist.filter
        (fun w => decide (w ∉ lastN 5 st.shuffle_history))).isEmpty with _ | _
    · rfl
    · exact absurd (List.isEmpty_iff.mp hz) hne
  simp only [get_random_wallpaper, hemp, Bool.false_eq_true, not_false_iff,
    ite_false]

theorem suffix_drop_one {s l : List String} (h : s <:+ l)
    (hlt : s.length < l.length) : s <:+ l.drop 1 := by
  obtain ⟨t, rfl⟩ := h
  cases t with
  | nil => simp at hlt
  | cons a t2 => exact ⟨t2, by simp⟩

/-- A suffix of length at most `n` is contained in the last `n` elements. -/
theorem suffix_mem_lastN {s l : List String} (h : s <:+ l)
    (hle : s.length ≤ n) {x : String} (hx : x ∈ s) : x ∈ lastN n l := by
  obtain ⟨t, rfl⟩ := h
  have hm : (t ++ s).length - n ≤ t.length := by
    simp only [List.length_append]
    omega
  simp only [lastN, List.drop_append_of_le_length hm]
  exact List.mem_append_right _ hx

/-- Appending the new pick extends a short suffix of the history to a suffix
of the updated history. -/
theorem suffix_step {st : RState} (hnd : st.playlist.Nodup)
    (hlen : 6 ≤ st.playlist.length) (k : Nat) {s : List String}
    (hs : s <:+ st.shuffle_history) (hs4 : s.length ≤ 4) :
    s ++ [(get_random_wallpaper k st).1] <:+
      ((get_random_wallpaper k st).2).shuffle_history := by
  rw [get_random_hist_eq hnd hlen k]
  obtain ⟨t, ht⟩ := hs
  have hsuf : s ++ [(get_random_wallpaper k st).1] <:+
      st.shuffle_history ++ [(get_random_wallpaper k st).1] :=
    ⟨t, by rw [← ht, List.append_assoc]⟩
  split
  · rename_i hlong
    apply suffix_drop_one hsuf
    simp only [List.length_append, List.length_cons, List.length_nil] at hlong ⊢
    omega
  · exact hsuf

/-- Core avoidance lemma: any identifier sitting in a short suffix `s` of the
current recency history is not returned by any of the next `6 - s.length`
picks. -/
theorem runRandom_avoids {ks : List Nat} {st : RState}
    (hnd : st.playlist.Nodup) (hlen : 6 ≤ st.playlist.length)
    {s : List String} (hs : s <:+ st.shuffle_history)
    {x : String} (hx : x ∈ s)
    {i : Nat} {a : String} (hia : (runRandom ks st).get? i = some a)
    (hle : i + s.length ≤ 5) : a ≠ x := by
  induction ks generalizing st s i with
  | nil => simp [runRandom] at hia
  | cons k ks ih =>
    cases i with
    | zero =>
      have ha : a = (get_random_wallpaper k st).1 := by
        have := hia
        simp only [runRandom, List.get?] at this
        exact (Option.some_injective _ this).symm
      subst ha
      intro hax
      apply sel_not_last5 hnd hlen k
      rw [hax]
      exact suffix_mem_lastN hs (by omega) hx
    | succ i2 =>
      have hia2 : (runRandom ks (get_random_wallpaper k st).2).get? i2 = some a := by
        simpa only [runRandom, List.get?] using hia
      have hnd2 : ((get_random_wallpaper k st).2).playlist.Nodup := by
        rw [get_random_playlist_eq]; exact hnd
      have hlen2 : 6 ≤ ((get_random_wallpaper k st).2).playlist.length := by
        rw [get_random_playlist_eq]; exact hlen
      exact ih hnd2 hlen2
        (suffix_step hnd hlen k hs (by omega))
        (List.mem_append_left _ hx) hia2
        (by simp only [List.length_append, List.length_cons, List.length_nil]; omega)

/-- C4 amended: the recency-avoiding random advance of the refactored
playlist manager (`Flow.PlaylistManager._Get_Random_Wallpaper`).  On a
duplicate-free playlist of at least 6 identifiers, in any run of consecutive
advance(random=true) calls and for every outcome of the random choices, no
returned identifier equals any of the previous 5 picks.  (The core
`PlaylistManager.get_next_wallpaper` does not have this property, see the
counterexample.) -/
theorem c4_random_avoids_recent (ks : List Nat) (st : RState)
    (hnd : st.playlist.Nodup) (hlen : 6 ≤ st.playlist.length)
    (i j : Nat) (a b : String) (hj : j < i) (hwin : i ≤ j + 5)
    (hia : (runRandom ks st).get? i = some a)
    (hjb : (runRandom ks st).get? j = some b) : a ≠ b := by
  induction ks generalizing st i j with
  | nil => simp [runRandom] at hia
  | cons k ks ih =>
    have hnd2 : ((get_random_wallpaper k st).2).playlist.Nodup := by
      rw [get_random_playlist_eq]; exact hnd
    have hlen2 : 6 ≤ ((get_random_wallpaper k st).2).playlist.length := by
      rw [get_random_playlist_eq]; exact hlen
    cases j with
    | zero =>
      have hb : b = (get_random_wallpaper k st).1 := by
        have := hjb
        simp only [runRandom, List.get?] at this
        exact (Option.some_injective _ this).symm
      cases i with
      | zero => omega
      | succ i2 =>
        have hia2 : (runRandom ks (get_random_wallpaper k st).2).get? i2 = some a := by
          simpa only [runRandom, List.get?] using hia
        subst hb
        have hsuf : [(get_random_wallpaper k st).1] <:+
            ((get_random_wallpaper k st).2).shuffle_history := by
          have := suffix_step hnd hlen k (List.nil_suffix (l := st.shuffle_history))
            (by simp)
          simpa using this
        exact runRandom_avoids hnd2 hlen2 hsuf (List.mem_singleton_self _) hia2
          (by simp only [List.length_cons, List.length_nil]; omega)
    | succ j2 =>
      cases i with
      | zero => omega
      | succ i2 =>
        have hia2 : (runRandom ks (get_random_wallpaper k st).2).get? i2 = some a := by
          simpa only [runRandom, List.get?] using hia
        have hjb2 : (runRandom ks (get_random_wallpaper k st).2).get? j2 = some b := by
          simpa only [runRandom, List.get?] using hjb
        exact ih _ hnd2 hlen2 i2 j2 (by omega) (by omega) hia2 hjb2

/-- A concrete starting state for the witness: six distinct identifiers and
an empty recency history. -/
def rstW : RState :=
  { playlist := ["A", "B", "C", "D", "E", "F"], shuffle_history := [] }

/-- Witness for C4 amended: on the concrete run [0, 0] from rstW the two
picks are "A" then "B", and the theorem yields their distinctness. -/
theorem c4_random_avoids_recent_witness :
    (runRandom [0, 0] rstW).get? 0 = some "A" ∧
    (runRandom [0, 0] rstW).get? 1 = some "B" ∧ ("B" : String) ≠ "A" :=
  ⟨by decide, by decide,
    c4_random_avoids_recent [0, 0] rstW (by decide) (by decide) 1 0 "B" "A"
      (by decide) (by decide) (by decide) (by decide)⟩

/-- One entry of the OS process table as seen through
`psutil.process_iter(attrs)`: PID, process name, command-line argument list.
On Linux psutil yields processes in ascending-PID order, so the table list is
ordered by PID. -/
structure Proc where
  pid : Nat
  name : String
  cmdline : List String
deriving Repr, DecidableEq

/-- Needle-matches-at-head step of Python substring containment. -/
def prefMatch : List Char → List Char → Bool
  | [], _ => true
  | _ :: _, [] => false
  | a :: as, b :: bs => a == b && prefMatch as bs

/-- Python `needle in haystack` on strings (substring containment; an empty
needle is contained in everything). -/
def subMatch (needle : List Char) : List Char → Bool
  | [] => prefMatch needle []
  | hay@(_ :: t) => prefMatch needle hay || subMatch needle t

def strContains (needle hay : String) : Bool := subMatch needle.data hay.data

/-- Python `' '.join(cmdline)` (an empty list joins to the empty string, as
in the sources' `' '.join(cmdline) if cmdline else ''`). -/
def joinSp (args : List String) : String := String.intercalate " " args

/-- Python's `\s` character class. -/
def wsB (c : Char) : Bool :=
  c == ' ' || c == '\t' || c == '\n' || c == '\r' || c == '\x0b' || c == '\x0c'

/-- Length of the leading run of decimal digits. -/
def digitRun : List Char → Nat
  | c :: cs => if c.isDigit then digitRun cs + 1 else 0
  | [] => 0

/-- The `(?:/|\s|$)` closing alternative of the detection regexes. -/
def endOk : List Char → Bool
  | [] => true
  | c :: _ => c == '/' || wsB c

/-- Length of the leading whitespace run (for `\s+`). -/
def wsRun : List Char → Nat
  | c :: cs => if wsB c then wsRun cs + 1 else 0
  | [] => 0

/-- Match of the 8-to-12-digit group plus closing lookahead at the head of
`cs`.  The greedy quantifier with backtracking can only succeed on the whole
leading digit run: any shorter prefix of the run is followed by a digit,
which the closing alternative rejects. -/
def digitGroupAt (cs : List Char) : Option (List Char) :=
  let r := digitRun cs
  if 8 ≤ r ∧ r ≤ 12 ∧ endOk (cs.drop r) = true then some (cs.take r) else none

def customTok : List Char := "custom_".data

def gifTok : List Char := "gif_".data

/-- Match of `custom_\d+` and `gif_\d+` style groups (tag then at least one
digit, whole run by the same greediness argument) plus the closing
alternative. -/
def taggedGroupAt (tag cs : List Char) : Option (List Char) :=
  if prefMatch tag cs then
    let rest := cs.drop tag.length
    let r := digitRun rest
    if 1 ≤ r ∧ endOk (rest.drop r) = true then some (tag ++ rest.take r) else none
  else none

/-- The group of the custom-media pattern: `custom_\d+` first, `gif_\d+`
second, per the alternation order. -/
def customGroupAt (cs : List Char) : Option (List Char) :=
  (taggedGroupAt customTok cs).orElse (fun _ => taggedGroupAt gifTok cs)

def dirTok : List Char := "--dir".data

/-- Match of the `--dir\s+` opening at the head, returning the position at
which the group starts.  `\s+` is greedy and the group starts with a
non-whitespace character, so only the maximal whitespace run can match. -/
def dirOpeningAt (cs : List Char) : Option (List Char) :=
  if prefMatch dirTok cs then
    let rest := cs.drop 5
    let w := wsRun rest
    if 1 ≤ w then some (rest.drop w) else none
  else none

/-- Model of `re.search` of the workshop-ID pattern
(opening `--dir\s+` or `/`, then the digit group): leftmost start position
wins, alternatives in source order at each position. -/
def searchDigits : List Char → Option (List Char)
  | [] => none
  | cs@(c :: t) =>
    ((match dirOpeningAt cs with
      | some rest => digitGroupAt rest
      | none => none) <|>
      (if c == '/' then digitGroupAt t else none)) <|>
    searchDigits t

/-- Model of `re.search` of the custom-media pattern (same openings, custom group). -/
def searchCustom : List Char → Option (List Char)
  | [] => none
  | cs@(c :: t) =>
    ((match dirOpeningAt cs with
      | some rest => customGroupAt rest
      | none => none) <|>
      (if c == '/' then customGroupAt t else none)) <|>
    searchCustom t

def lweNeedle : String := "linux-wallpaperengine"

/-- Renderer-process match condition of
`_detect_from_linux_wallpaperengine_process` and of the first pass of
`_verify_wallpaper_process_running`. -/
def lweMatch (p : Proc) : Bool :=
  strContains lweNeedle p.name ||
    p.cmdline.any (fun c => strContains lweNeedle c)

/-- Identifier extraction from a renderer process's joined command line:
workshop pattern first, then the custom-media pattern. -/
def extractLweId (s : String) : Option String :=
  match searchDigits s.data with
  | some g => some (String.mk g)
  | none => (searchCustom s.data).map (fun g => String.mk g)

/-- Model of `_detect_from_linux_wallpaperengine_process`: return the identifier
extracted from the first matching process (in table order) whose command
line yields one; matching processes without an extractable identifier are
skipped. -/
def detect_from_lwe : List Proc → Option String
  | [] => none
  | p :: ps =>
    if lweMatch p then
      match extractLweId (joinSp p.cmdline) with
      | some id => some id
      | none => detect_from_lwe ps
    else detect_from_lwe ps

/-- Python `str.lower()` (ASCII case fold; only ASCII letters occur in the
compared needles). -/
def toLowerStr (s : String) : String := String.mk (s.data.map Char.toLower)

/-- Video-wallpaper match condition of `_detect_from_video_wallpaper_process`
and of the second pass of `_verify_wallpaper_process_running`. -/
def videoMatch (p : Proc) : Bool :=
  strContains "mpvpaper" p.name ||
    p.cmdline.any (fun c => strContains "mpvpaper" c) ||
    (p.name == "mpv" &&
      p.cmdline.any (fun c => strContains "wallpaper" (toLowerStr c)))

/-- Python `\w` (word character). -/
def wordC (c : Char) : Bool := c.isAlphanum || c == '_'

/-- Length of the leading run of word characters. -/
def wordRun : List Char → Nat
  | c :: cs => if wordC c then wordRun cs + 1 else 0
  | [] => 0

def wsPathTok : List Char := "/steamapps/workshop/content/431960/".data

/-- Match of `/steamapps/workshop/content/431960/(\w+)/` at the head: greedy
`\w+` can only succeed on the whole word run (a shorter take is followed by a
word character, not the required slash). -/
def workshopPathGroupAt (cs : List Char) : Option (List Char) :=
  if prefMatch wsPathTok cs then
    let rest := cs.drop wsPathTok.length
    let r := wordRun rest
    if 1 ≤ r ∧ (match rest.drop r with | c :: _ => c == '/' | [] => false) = true then
      some (rest.take r)
    else none
  else none

/-- Model of `re.search` of the workshop content-path pattern. -/
def searchWorkshopPath : List Char → Option (List Char)
  | [] => none
  | cs@(_ :: t) => workshopPathGroupAt cs <|> searchWorkshopPath t

/-- Model of `pathlib.Path(arg).parent.name`: the next-to-last non-empty slash
component (empty when there is none). -/
def parentName (s : String) : String :=
  let comps := (s.splitOn "/").filter (fun c => c ≠ "")
  match comps.reverse with
  | _ :: parent :: _ => parent
  | _ => ""

/-- Python `str.isdigit` (non-empty, all digits). -/
def pyIsDigit (s : String) : Bool :=
  (!s.isEmpty) && s.data.all (fun c => c.isDigit)

/-- Python `str.startswith`. -/
def startsWithB (pre s : String) : Bool := prefMatch pre.data s.data

/-- The argument-by-argument fallback of
`_detect_from_video_wallpaper_process`: any argument containing "/431960/"
whose parent directory name is a numeric or custom_ identifier. -/
def videoFallback : List String → Option String
  | [] => none
  | arg :: rest =>
    if strContains "/431960/" arg then
      let pot := parentName arg
      if (!pot.isEmpty) && (pyIsDigit pot || startsWithB "custom_" pot) then
        some pot
      else videoFallback rest
    else videoFallback rest

/-- Identifier extraction of the video probe: content-path regex over the
joined command line, then the per-argument fallback. -/
def extractVideoId (p : Proc) : Option String :=
  match searchWorkshopPath (joinSp p.cmdline).data with
  | some g => some (String.mk g)
  | none => videoFallback p.cmdline

/-- Model of `_detect_from_video_wallpaper_process`. -/
def detect_from_video : List Proc → Option String
  | [] => none
  | p :: ps =>
    if videoMatch p then
      match extractVideoId p with
      | some id => some id
      | none => detect_from_video ps
    else detect_from_video ps

/-- The slash-component scan fallback of `_detect_from_swww`: a component
equal to "431960" followed by a numeric or custom_ successor. -/
def swwwPartsScan : List String → Option String
  | [] => none
  | part :: rest =>
    if part == "431960" then
      match rest with
      | pot :: _ =>
        if (!pot.isEmpty) && (pyIsDigit pot || startsWithB "custom_" pot) then
          some pot
        else swwwPartsScan rest
      | [] => swwwPartsScan rest
    else swwwPartsScan rest

/-- One line of swww query output: considered only when it contains a colon
and "/431960/"; content-path regex first, slash-component fallback second. -/
def swwwLine (line : String) : Option String :=
  if strContains ":" line && strContains "/431960/" line then
    match searchWorkshopPath line.data with
    | some g => some (String.mk g)
    | none => swwwPartsScan (line.splitOn "/")
  else none

def swwwScanLines : List String → Option String
  | [] => none
  | l :: ls => (swwwLine l).orElse (fun _ => swwwScanLines ls)

/-- Model of `_detect_from_swww`: a `none` input models every failure mode of the
`swww query` subprocess (missing binary, timeout, non-zero exit); a
successful run's stdout is stripped and scanned line by line. -/
def detect_from_swww : Option String → Option String
  | none => none
  | some out => swwwScanLines (out.trim.splitOn "\n")

/-- The live environment consulted by detection and verification. -/
structure World where
  table : List Proc
  swww : Option String
deriving Repr, DecidableEq

/-- Model of `_verify_wallpaper_process_running`: the renderer pass and the video pass
test the identifier as a substring of the joined command line of every
matching process; the third pass compares the swww probe's extraction for
equality (`_is_swww_wallpaper_active`). -/
def verify_wallpaper_process_running (w : World) (id : String) : Bool :=
  w.table.any (fun p => lweMatch p && strContains id (joinSp p.cmdline)) ||
    w.table.any (fun p => videoMatch p && strContains id (joinSp p.cmdline)) ||
    (match detect_from_swww w.swww with
     | some d => d == id
     | none => false)

/-- Python truthiness of an optional string (None and "" are falsy). -/
def strTruthy : Option String → Bool
  | none => false
  | some s => !s.isEmpty

/-- Result of `_detect_active_wallpaper`: the surfaced identifier, the
engine's (possibly cleared) cached wallpaper, the playlist manager state
(possibly cleared), and whether the manager state was saved. -/
structure DetectOut where
  result : Option String
  engine_wp : Option String
  pm : PMState
  pm_saved : Bool
deriving Repr, DecidableEq

/-- Steps 2-5 of `_detect_active_wallpaper`: renderer probe, video probe,
swww probe, then the playlist manager's cached current wallpaper, surfaced
only if verified and otherwise cleared and saved. -/
def detect_steps2to5 (w : World) (ew : Option String) (pm : PMState) :
    DetectOut :=
  match detect_from_lwe w.table with
  | some d => ⟨some d, ew, pm, false⟩
  | none =>
    match detect_from_video w.table with
    | some d => ⟨some d, ew, pm, false⟩
    | none =>
      match detect_from_swww w.swww with
      | some d => ⟨some d, ew, pm, false⟩
      | none =>
        let pc := pm_get_current pm
        if strTruthy pc then
          if verify_wallpaper_process_running w (pc.getD "") then
            ⟨pc, ew, pm, false⟩
          else ⟨none, ew, pm_clear_current pm, true⟩
        else ⟨none, ew, pm, false⟩

/-- Model of `_detect_active_wallpaper`: the engine's cached wallpaper is surfaced
when process-verified and cleared when not, then the three probes and the
playlist manager fallback run. -/
def detect_active_wallpaper (w : World) (engine_wp : Option String)
    (pm : PMState) : DetectOut :=
  if strTruthy engine_wp then
    if verify_wallpaper_process_running w (engine_wp.getD "") then
      ⟨engine_wp, engine_wp, pm, false⟩
    else detect_steps2to5 w none pm
  else detect_steps2to5 w engine_wp pm

/-- Result of `_restore_app_state`: the manager state, the engine's cached
wallpaper, whether the auto-advance timer is running, the wallpaper surfaced
to the playlist widget, and the settings file after the run. -/
structure RestoreOut where
  pm : PMState
  engine_wp : Option String
  timer_running : Bool
  surfaced : Option String
  file : SettingsFile
deriving Repr, DecidableEq

/-- Model of `_restore_app_state`.  Phase 1 clamps an out-of-range persisted cursor
(saving the correction) and restarts the timer if the snapshot said playing.
Phase 2 runs `_detect_active_wallpaper` and applies the smart-sync rules:
playing and detected-in-playlist corrects the cursor and keeps the timer;
playing and detected-outside-playlist stops playback, stops the timer and
persists the correction; not playing keeps the playlist stopped.  The
playlist widget's item list mirrors `PlaylistManager.current_playlist`, from
which it is populated at startup. -/
def restore_app_state (w : World) (pm0 : PMState) (engine_wp : Option String)
    (file0 : SettingsFile) (timer0 : Bool) : RestoreOut :=
  let clamp : Bool :=
    decide (pm0.current_playlist ≠ [] ∧
      ((pm0.current_playlist.length : Int) ≤ pm0.current_index ∨
        pm0.current_index < 0))
  let pm1 := if clamp then { pm0 with current_index := 0 } else pm0
  let file1 := if clamp then pm_save_settings pm1 else file0
  let timer1 :=
    if pm1.current_playlist ≠ [] ∧ pm1.is_playing = true then true else timer0
  let surf1 :=
    if pm1.current_playlist ≠ [] ∧ pm1.is_playing = true then pm_get_current pm1
    else none
  let d := detect_active_wallpaper w engine_wp pm1
  match d.result with
  | some c =>
    let items := d.pm.current_playlist
    if d.pm.is_playing = true ∧ c ∈ items then
      let pm2 := { d.pm with current_index := (items.indexOf c : Int) }
      ⟨pm2, d.engine_wp, true, some c, pm_save_settings pm2⟩
    else if d.pm.is_playing = true ∧ c ∉ items then
      let pm2 := { d.pm with is_playing := false }
      ⟨pm2, d.engine_wp, false, some c, pm_save_settings pm2⟩
    else
      let pm2 := { d.pm with is_playing := false }
      ⟨pm2, d.engine_wp, false, some c, pm_save_settings pm2⟩
  | none =>
    ⟨d.pm, d.engine_wp, timer1, surf1,
      if d.pm_saved then pm_save_settings d.pm else file1⟩

theorem detect_from_lwe_none {t : List Proc}
    (h : ∀ p ∈ t, lweMatch p = false) : detect_from_lwe t = none := by
  induction t with
  | nil => rfl
  | cons p ps ih =>
    simp only [detect_from_lwe, h p (List.mem_cons_self p ps),
      Bool.false_eq_true, if_false]
    exact ih (fun q hq => h q (List.mem_cons_of_mem p hq))

theorem detect_from_video_none {t : List Proc}
    (h : ∀ p ∈ t, videoMatch p = false) : detect_from_video t = none := by
  induction t with
  | nil => rfl
  | cons p ps ih =>
    simp only [detect_from_video, h p (List.mem_cons_self p ps),
      Bool.false_eq_true, if_false]
    exact ih (fun q hq => h q (List.mem_cons_of_mem p hq))

/-- When no process matches the renderer or video patterns and the swww
probe yields nothing, verification rejects every identifier. -/
theorem verify_false_of_no_evidence {w : World}
    (hlwe : ∀ p ∈ w.table, lweMatch p = false)
    (hvid : ∀ p ∈ w.table, videoMatch p = false)
    (hsw : detect_from_swww w.swww = none) (id : String) :
    verify_wallpaper_process_running w id = false := by
  unfold verify_wallpaper_process_running
  rw [hsw]
  have h1 : w.table.any
      (fun p => lweMatch p && strContains id (joinSp p.cmdline)) = false := by
    rw [List.any_eq_false]
    intro p hp
    simp [hlwe p hp]
  have h2 : w.table.any
      (fun p => videoMatch p && strContains id (joinSp p.cmdline)) = false := by
    rw [List.any_eq_false]
    intro p hp
    simp [hvid p hp]
  rw [h1, h2]
  rfl

/-- C2: when the persisted snapshot records a current wallpaper but no live
process evidence exists anywhere (no renderer-matching process, no
video-matching process, nothing from the compositor query),
`_detect_active_wallpaper` surfaces no current wallpaper and clears the
engine's cached identifier rather than trusting it. -/
theorem c2_no_evidence_discards (w : World) (a : String) (pm : PMState)
    (ha : a ≠ "")
    (hlwe : ∀ p ∈ w.table, lweMatch p = false)
    (hvid : ∀ p ∈ w.table, videoMatch p = false)
    (hsw : detect_from_swww w.swww = none) :
    (detect_active_wallpaper w (some a) pm).result = none ∧
    (detect_active_wallpaper w (some a) pm).engine_wp = none := by
  have hver := verify_false_of_no_evidence hlwe hvid hsw
  have hlweN := detect_from_lwe_none hlwe
  have hvidN := detect_from_video_none hvid
  have htr : strTruthy (some a) = true := by
    have : a.isEmpty = false := by
      rcases hz : a.isEmpty with _ | _
      · rfl
      · exact absurd ((String.isEmpty_iff a).mp hz) ha
    simp [strTruthy, this]
  unfold detect_active_wallpaper
  rw [htr, if_pos rfl, hver, if_neg (by simp)]
  unfold detect_steps2to5
  rw [hlweN, hvidN, hsw]
  dsimp only
  cases htp : strTruthy (pm_get_current pm) with
  | false => simp
  | true => simp [hver]

/-- Witness for C2: empty process table, failing swww query, default manager
state, persisted wallpaper "A". -/
theorem c2_no_evidence_discards_witness :
    (detect_active_wallpaper ⟨[], none⟩ (some "A") initPMState).result = none ∧
    (detect_active_wallpaper ⟨[], none⟩ (some "A") initPMState).engine_wp = none :=
  c2_no_evidence_discards ⟨[], none⟩ "A" initPMState (by decide)
    (fun p hp => absurd hp (List.not_mem_nil p))
    (fun p hp => absurd hp (List.not_mem_nil p)) rfl

/-- A renderer process whose command line runs wallpaper 123456789012. -/
def procCE : Proc :=
  { pid := 100, name := "linux-wallpaperengine",
    cmdline := ["linux-wallpaperengine", "--bg", "/p/431960/123456789012"] }

def worldCE : World := { table := [procCE], swww := none }

/-- C6 counterexample: verification is a substring test, not
extract-and-compare.  With one renderer process running wallpaper
123456789012, `verify("3456")` returns true because "3456" occurs as a proper
substring of the command line, yet no probe extracts an identifier
string-equal to "3456" — refuting the claimed equivalence. -/
theorem c6_counterexample :
    ¬ (verify_wallpaper_process_running worldCE "3456" = true ↔
        (detect_from_lwe worldCE.table = some "3456" ∨
          detect_from_video worldCE.table = some "3456" ∨
          detect_from_swww worldCE.swww = some "3456")) := by
  decide

/-- C6 amended: verification returns true iff the identifier occurs as a
substring of the joined command line of some renderer-matching or
video-matching process, or the compositor probe's extracted identifier equals
it. -/
theorem c6_verify_substring_semantics (w : World) (id : String) :
    verify_wallpaper_process_running w id = true ↔
      ((∃ p ∈ w.table, (lweMatch p || videoMatch p) = true ∧
          strContains id (joinSp p.cmdline) = true) ∨
        detect_from_swww w.swww = some id) := by
  unfold verify_wallpaper_process_running
  cases hsw : detect_from_swww w.swww with
  | none =>
    simp only [Bool.or_eq_true, List.any_eq_true, Bool.and_eq_true]
    constructor
    · rintro ((⟨p, hp, hm, hc⟩ | ⟨p, hp, hm, hc⟩) | habs)
      · exact Or.inl ⟨p, hp, by simp [hm], hc⟩
      · exact Or.inl ⟨p, hp, by simp [hm], hc⟩
      · simp at habs
    · rintro (⟨p, hp, hm, hc⟩ | habs)
      · have hm2 : lweMatch p = true ∨ videoMatch p = true := by simpa using hm
        rcases hm2 with h | h
        · exact Or.inl (Or.inl ⟨p, hp, h, hc⟩)
        · exact Or.inl (Or.inr ⟨p, hp, h, hc⟩)
      · exact absurd habs (by simp)
  | some d =>
    simp only [Bool.or_eq_true, List.any_eq_true, Bool.and_eq_true]
    constructor
    · rintro ((⟨p, hp, hm, hc⟩ | ⟨p, hp, hm, hc⟩) | hde)
      · exact Or.inl ⟨p, hp, by simp [hm], hc⟩
      · exact Or.inl ⟨p, hp, by simp [hm], hc⟩
      · exact Or.inr (by simpa using hde)
    · rintro (⟨p, hp, hm, hc⟩ | hde)
      · have hm2 : lweMatch p = true ∨ videoMatch p = true := by simpa using hm
        rcases hm2 with h | h
        · exact Or.inl (Or.inl ⟨p, hp, h, hc⟩)
        · exact Or.inl (Or.inr ⟨p, hp, h, hc⟩)
      · exact Or.inr (by simpa using hde)

/-- Witness for C6 amended at the concrete world worldCE and a concrete
identifier actually contained in the process command line. -/
theorem c6_verify_substring_semantics_witness :
    verify_wallpaper_process_running worldCE "123456789012" = true :=
  (c6_verify_substring_semantics worldCE "123456789012").mpr
    (Or.inl ⟨procCE, by decide, by decide, by decide⟩)

/-- The lower-PID renderer process, running wallpaper 11111111. -/
def procLo : Proc :=
  { pid := 100, name := "linux-wallpaperengine",
    cmdline := ["linux-wallpaperengine", "--bg", "/w/431960/11111111"] }

/-- The higher-PID renderer process, running wallpaper 22222222. -/
def procHi : Proc :=
  { pid := 200, name := "linux-wallpaperengine",
    cmdline := ["linux-wallpaperengine", "--bg", "/w/431960/22222222"] }

def tableC7 : List Proc := [procLo, procHi]

/-- Highest-PID selection, modelled from the spec's words ("selects the
process with the highest PID ... and extracts the wallpaper identifier from
that process's command line"), for comparison with the implementation. -/
def spec_highest_pid_detect (t : List Proc) : Option String :=
  match t.filter (fun p => lweMatch p) with
  | [] => none
  | m :: ms =>
    extractLweId (joinSp
      ((ms.foldl (fun acc q => if acc.pid < q.pid then q else acc) m).cmdline))

/-- C7 counterexample: with two matching renderer processes (PIDs 100 and
200) the probe returns the identifier of the first process in iteration
order (the lowest PID), not the identifier of the highest-PID process the
claim prescribes. -/
theorem c7_counterexample :
    detect_from_lwe tableC7 = some "11111111" ∧
    spec_highest_pid_detect tableC7 = some "22222222" ∧
    detect_from_lwe tableC7 ≠ spec_highest_pid_detect tableC7 := by
  decide

/-- C7 amended: the renderer probe scans the table in iteration order
(ascending PID) and returns the identifier extracted from the first process
that both matches and yields one; earlier processes that do not match or do
not yield an identifier are skipped. -/
theorem c7_first_match (t1 t2 : List Proc) (p : Proc) (id : String)
    (h1 : ∀ q ∈ t1, lweMatch q = false ∨ extractLweId (joinSp q.cmdline) = none)
    (hm : lweMatch p = true)
    (he : extractLweId (joinSp p.cmdline) = some id) :
    detect_from_lwe (t1 ++ p :: t2) = some id := by
  induction t1 with
  | nil => simp [detect_from_lwe, hm, he]
  | cons q qs ih =>
    have hrest : detect_from_lwe (qs ++ p :: t2) = some id :=
      ih (fun r hr => h1 r (List.mem_cons_of_mem q hr))
    rcases h1 q (List.mem_cons_self q qs) with hq | hq
    · simp only [List.cons_append, detect_from_lwe, hq, Bool.false_eq_true,
        if_false]
      exact hrest
    · cases hql : lweMatch q with
      | false =>
        simp only [List.cons_append, detect_from_lwe, hql, Bool.false_eq_true,
          if_false]
        exact hrest
      | true =>
        simp only [List.cons_append, detect_from_lwe, hql, if_true, hq]
        exact hrest

/-- Witness for C7 amended: a non-matching process ahead of procLo, procHi
behind it; the probe returns procLo's identifier. -/
theorem c7_first_match_witness :
    detect_from_lwe ([⟨50, "bash", ["bash"]⟩] ++ procLo :: [procHi]) =
      some "11111111" :=
  c7_first_match [⟨50, "bash", ["bash"]⟩] [procHi] procLo "11111111"
    (by intro q hq; rw [List.mem_singleton] at hq; subst hq; left; decide)
    (by decide) (by decide)

/-- Model of `WallpaperEngine.stop_current_wallpaper`, paired with the OS process
table the method never touches (it contains no kill or terminate call): it
only clears the in-memory reference (Python truthiness: the body runs only
for a non-empty cached identifier) and returns True. -/
def stop_current_wallpaper (st : EngState) (os : List Proc) :
    Bool × EngState × List Proc :=
  if strTruthy st.current_wallpaper then
    (true, { st with current_wallpaper := none }, os)
  else (true, st, os)

/-- C10: stop always returns True, terminates no OS process, leaves
last_settings and the remaining engine fields unchanged, clears any (truthy)
cached wallpaper reference, and afterwards no current wallpaper is
referenced. -/
theorem c10_stop_frame (st : EngState) (os : List Proc) :
    (stop_current_wallpaper st os).1 = true ∧
    (stop_current_wallpaper st os).2.2 = os ∧
    (stop_current_wallpaper st os).2.1.last_settings = st.last_settings ∧
    (stop_current_wallpaper st os).2.1.current_process = st.current_process ∧
    strTruthy (stop_current_wallpaper st os).2.1.current_wallpaper = false ∧
    (strTruthy st.current_wallpaper = true →
      (stop_current_wallpaper st os).2.1.current_wallpaper = none) := by
  unfold stop_current_wallpaper
  cases h : strTruthy st.current_wallpaper with
  | false => simp [h]
  | true => simp [h, strTruthy]

/-- Witness for C10 at a concrete engine state with a cached wallpaper. -/
theorem c10_stop_frame_witness :
    (stop_current_wallpaper ⟨some "123", none, []⟩ []).1 = true ∧
    (stop_current_wallpaper ⟨some "123", none, []⟩ []).2.1.current_wallpaper
      = none :=
  ⟨(c10_stop_frame ⟨some "123", none, []⟩ []).1,
    (c10_stop_frame ⟨some "123", none, []⟩ []).2.2.2.2.2 (by decide)⟩

theorem detect_steps_some_pm {w : World} {e : Option String} {pm : PMState}
    {c : String} (h : (detect_steps2to5 w e pm).result = some c) :
    (detect_steps2to5 w e pm).pm = pm := by
  unfold detect_steps2to5 at h ⊢
  cases h1 : detect_from_lwe w.table with
  | some d => simp only [h1]
  | none =>
    simp only [h1] at h ⊢
    cases h2 : detect_from_video w.table with
    | some d => simp only [h2]
    | none =>
      simp only [h2] at h ⊢
      cases h3 : detect_from_swww w.swww with
      | some d => simp only [h3]
      | none =>
        simp only [h3] at h ⊢
        cases h4 : strTruthy (pm_get_current pm) with
        | false => simp [h4]
        | true =>
          cases h5 : verify_wallpaper_process_running w
              ((pm_get_current pm).getD "") with
          | false => simp [h4, h5] at h
          | true => simp [h4, h5]

theorem detect_active_some_pm {w : World} {e : Option String} {pm : PMState}
    {c : String}
    (h : (detect_active_wallpaper w e pm).result = some c) :
    (detect_active_wallpaper w e pm).pm = pm := by
  unfold detect_active_wallpaper at h ⊢
  cases h1 : strTruthy e with
  | false =>
    simp only [h1, Bool.false_eq_true, if_false] at h ⊢
    exact detect_steps_some_pm h
  | true =>
    simp only [h1, if_true] at h ⊢
    cases h2 : verify_wallpaper_process_running w (e.getD "") with
    | true => simp [h2]
    | false =>
      simp only [h2, Bool.false_eq_true, if_false] at h ⊢
      exact detect_steps_some_pm h

/-- C1: when startup reconciliation runs with persisted is_playing = true
(and an in-range persisted cursor, so phase 1 does not clamp) and the live
detection reports an identifier outside the current playlist, afterwards
is_playing is false, the auto-advance timer is stopped, the surfaced current
wallpaper is the detected identifier, and the corrected is_playing value is
written back to the persisted settings file. -/
theorem c1_conflict_resolution (w : World) (pm0 : PMState)
    (engine_wp : Option String) (file0 : SettingsFile) (timer0 : Bool)
    (c : String)
    (hplay : pm0.is_playing = true)
    (hidx : 0 ≤ pm0.current_index ∧
      pm0.current_index < (pm0.current_playlist.length : Int))
    (hdet : (detect_active_wallpaper w engine_wp pm0).result = some c)
    (hnot : c ∉ pm0.current_playlist) :
    (restore_app_state w pm0 engine_wp file0 timer0).pm.is_playing = false ∧
    (restore_app_state w pm0 engine_wp file0 timer0).timer_running = false ∧
    (restore_app_state w pm0 engine_wp file0 timer0).surfaced = some c ∧
    (restore_app_state w pm0 engine_wp file0 timer0).file =
      pm_save_settings (restore_app_state w pm0 engine_wp file0 timer0).pm ∧
    (pm_load_settings (restore_app_state w pm0 engine_wp file0 timer0).file
      initPMState).1.is_playing = false := by
  have hclamp : (decide (pm0.current_playlist ≠ [] ∧
      ((pm0.current_playlist.length : Int) ≤ pm0.current_index ∨
        pm0.current_index < 0))) = false := by
    simp only [decide_eq_false_iff_not]
    rintro ⟨-, hx | hx⟩ <;> omega
  have hpm := detect_active_some_pm hdet
  unfold restore_app_state
  dsimp only
  rw [hclamp]
  simp only [Bool.false_eq_true, if_false, hdet, hpm, hplay]
  rw [if_neg (fun hand => hnot hand.2), if_pos ⟨trivial, hnot⟩]
  exact ⟨rfl, rfl, rfl, rfl, rfl⟩

/-- The renderer process of the C1 witness, running wallpaper 99999999. -/
def procW : Proc :=
  { pid := 321, name := "linux-wallpaperengine",
    cmdline := ["linux-wallpaperengine", "--bg", "/w/431960/99999999"] }

def worldW : World := { table := [procW], swww := none }

/-- Persisted state of the C1 witness: playlist [A, B], playing. -/
def pmW : PMState :=
  { initPMState with current_playlist := ["A", "B"], is_playing := true }

/-- Witness for C1 at concrete inputs: detection finds 99999999 (not in the
playlist), playback is forced off, the timer is stopped, 99999999 is
surfaced. -/
theorem c1_conflict_resolution_witness :
    (restore_app_state worldW pmW none .missing false).pm.is_playing = false ∧
    (restore_app_state worldW pmW none .missing false).timer_running = false ∧
    (restore_app_state worldW pmW none .missing false).surfaced
      = some "99999999" :=
  ⟨(c1_conflict_resolution worldW pmW none .missing false "99999999" rfl
      (by decide) (by decide) (by decide)).1,
    (c1_conflict_resolution worldW pmW none .missing false "99999999" rfl
      (by decide) (by decide) (by decide)).2.1,
    (c1_conflict_resolution worldW pmW none .missing false "99999999" rfl
      (by decide) (by decide) (by decide)).2.2.1⟩

end LWEGui
